import Mathlib

/-!
Verification development for the build-orchestration core of a LaTeX build
extension (file src/components/builder.ts of the repository).  The
definitions below are a shallow embedding of that file: pure decision logic
is translated to Lean functions, observable side effects (log lines, error
notifications, mutex-release invocations, process spawns) are made explicit
as data, and the event-driven build loop is modelled as a step function over
an explicit attempt state.  Status-bar updates and raw compiler-output
streaming are elided; they are not referenced by any property proved here.
-/

namespace Builder

/-- Constant `maxPrintLine` of builder.ts (line 13). -/
def maxPrintLine : String := "10000"

/-- Constant `texMagicProgramName` of builder.ts (line 14). -/
def texMagicProgramName : String := "TeXMagicProgram"

/-- Constant `bibMagicProgramName` of builder.ts (line 15). -/
def bibMagicProgramName : String := "BibMagicProgram"

/-- Interface `StepCommand` of builder.ts (lines 557-562): one external
invocation.  `args` and `env` are optional exactly as in the source; an
environment object is modelled as an association list in insertion order. -/
structure StepCommand where
  name : String
  command : String
  args : Option (List String) := none
  env : Option (List (String × String)) := none
deriving DecidableEq, Repr

/-- A tool reference inside a recipe: `(string | StepCommand)` in the
source (interface `Recipe`, line 566). -/
inductive ToolRef where
  | byName (s : String)
  | inline (t : StepCommand)
deriving DecidableEq, Repr

/-- Interface `Recipe` of builder.ts (lines 564-567). -/
structure Recipe where
  name : String
  tools : List ToolRef
deriving DecidableEq, Repr

/-- The configuration surface read by builder.ts through
`vscode.workspace.getConfiguration('latex-workshop')`: a static snapshot of
the keys the builder consults. -/
structure Config where
  forceRecipeUsage : Bool          -- latex.build.forceRecipeUsage
  magicArgs : List String          -- latex.magic.args
  magicBibArgs : List String       -- latex.magic.bib.args
  recipes : List Recipe            -- latex.recipes
  defaultRecipeName : String       -- latex.recipe.default
  tools : List StepCommand         -- latex.tools
  dockerEnabled : Bool             -- docker.enabled
  maxPrintLineEnabled : Bool       -- latex.option.maxPrintLine.enabled
  cleanAndRetryEnabled : Bool      -- latex.autoBuild.cleanAndRetry.enabled
  autoCleanRun : String            -- latex.autoClean.run
deriving DecidableEq, Repr

/-- The per-instance mutable fields of class `Builder` that recipe
resolution reads and writes (`isMiktex`, `previouslyUsedRecipe`,
`previousLanguageId`), plus the resolved path of the bundled docker
latexmk wrapper script used at line 471/473. -/
structure BuilderState where
  isMiktex : Bool
  previouslyUsedRecipe : Option Recipe
  previousLanguageId : Option String
  dockerLatexmkCommand : String
deriving DecidableEq, Repr

/-- An observable report to the user: `logger.addLogMessage` is `log`,
`logger.showErrorMessage` (and the WithButton variants) is `notify`. -/
inductive LogEvent where
  | log (msg : String)
  | notify (msg : String)
deriving DecidableEq, Repr

/-! Section: directive scanner (`findProgramMagic`, builder.ts lines 511-550)

The four regular expressions of `findProgramMagic` are transcribed as
character-list matchers.  File content is given as its list of lines; the
`m` flag on the source regexes anchors `^`/`$` at line boundaries, and
`String.prototype.match` returns the first match in the string, i.e. the
first matching line. -/

/-- JS `\s` restricted to characters that can occur inside one line. -/
def isWsChar (c : Char) : Bool :=
  c = ' ' ∨ c = '\t' ∨ c = '\x0b' ∨ c = '\x0c' ∨ c = '\r'

/-- Drop a maximal run of whitespace (`\s*`). -/
def dropWs : List Char → List Char
  | [] => []
  | c :: cs => if isWsChar c then dropWs cs else c :: cs

/-- Consume a literal prefix, returning the remainder on success. -/
def consumeLit : List Char → List Char → Option (List Char)
  | [], cs => some cs
  | _ :: _, [] => none
  | p :: ps, c :: cs => if c = p then consumeLit ps cs else none

/-- Consume the directive header `%\s*!\s*KEYWORD\s` where KEYWORD is
`T[Ee]X` (for `tex := true`) or `BIB`, ending with exactly one mandatory
whitespace character. -/
def consumeHeader (tex : Bool) (cs : List Char) : Option (List Char) :=
  match cs with
  | '%' :: r0 =>
    match dropWs r0 with
    | '!' :: r1 =>
      let r2 := dropWs r1
      let afterKw : Option (List Char) :=
        if tex then
          match r2 with
          | 'T' :: c :: 'X' :: r3 => if c = 'E' ∨ c = 'e' then some r3 else none
          | _ => none
        else consumeLit ['B', 'I', 'B'] r2
      match afterKw with
      | some (c :: r4) => if isWsChar c then some r4 else none
      | _ => none
    | _ => none
  | _ => none

/-- Consume the optional `TS-` marker followed by the mandatory keyword
(`(?:TS-)?program` or `(?:TS-)?options`). -/
def consumeTSKeyword (kw : List Char) (cs : List Char) : Option (List Char) :=
  match consumeLit ['T', 'S', '-'] cs with
  | some r => consumeLit kw r
  | none => consumeLit kw cs

/-- Matcher for `^%\s*!\s*T[Ee]X\s(?:TS-)?program\s*=\s*([^\s]*)$` (and the
BIB variant): the captured group is the trailing whitespace-free token. -/
def matchProgramLine (tex : Bool) (cs : List Char) : Option String :=
  match consumeHeader tex cs with
  | none => none
  | some r0 =>
    match consumeTSKeyword ['p', 'r', 'o', 'g', 'r', 'a', 'm'] r0 with
    | none => none
    | some r1 =>
      match dropWs r1 with
      | '=' :: r2 =>
        let r3 := dropWs r2
        if r3.all (fun c => ¬ isWsChar c) then some (String.mk r3) else none
      | _ => none

/-- Matcher for `^%\s*!\s*T[Ee]X\s(?:TS-)?options\s*=\s*(.*)$` (and the BIB
variant): the captured group is the rest of the line after the `=` and any
following whitespace. -/
def matchOptionsLine (tex : Bool) (cs : List Char) : Option String :=
  match consumeHeader tex cs with
  | none => none
  | some r0 =>
    match consumeTSKeyword ['o', 'p', 't', 'i', 'o', 'n', 's'] r0 with
    | none => none
    | some r1 =>
      match dropWs r1 with
      | '=' :: r2 => some (String.mk (dropWs r2))
      | _ => none

/-- First line (in order) on which the matcher succeeds, with its capture:
the behaviour of `content.match(regex)` under the `m` flag. -/
def firstMatch (f : List Char → Option String) : List String → Option String
  | [] => none
  | l :: ls =>
    match f l.data with
    | some s => some s
    | none => firstMatch f ls

/-- `findProgramMagic` (builder.ts lines 511-550): scan the root file for a
TeX-program and a BIB-program directive; when a program directive is found,
attach the (single-string) options capture as its argument list if an
options directive is also present.  The informational log lines of the
source are elided. -/
def findProgramMagic (lines : List String) : Option StepCommand × Option StepCommand :=
  let texCommand : Option StepCommand :=
    match firstMatch (matchProgramLine true) lines with
    | none => none
    | some t =>
      match firstMatch (matchOptionsLine true) lines with
      | some o => some { name := texMagicProgramName, command := t, args := some [o] }
      | none => some { name := texMagicProgramName, command := t }
  let bibCommand : Option StepCommand :=
    match firstMatch (matchProgramLine false) lines with
    | none => none
    | some t =>
      match firstMatch (matchOptionsLine false) lines with
      | some o => some { name := bibMagicProgramName, command := t, args := some [o] }
      | none => some { name := bibMagicProgramName, command := t }
  (texCommand, bibCommand)

/-! Section: recipe resolution (`createSteps`, builder.ts lines 378-509)

The resolver is split along the source's own sections: magic-directive
backfill (383-396), the named/default/fallback recipe selection (398-441),
tool expansion (445-457) and per-step materialization (462-507).
`replaceArgumentPlaceholders` lives in src/utils/utils, outside this
excerpt; following the spec it is a pure substitution function and is
therefore passed in as an arbitrary function `rap : String → String`
already specialized to the root file and the scratch directory. -/

/-- JS truthiness of a `string | undefined` value: `undefined` and the
empty string are falsy. -/
def strTruthy : Option String → Bool
  | none => false
  | some s => ¬ (s = "")

/-- JS string interpolation of a `string | undefined` value. -/
def showJs : Option String → String
  | none => "undefined"
  | some s => s

/-- The error message of builder.ts lines 416-417 and 433-434. -/
def resolveFailMsg (rn : Option String) : String :=
  "Failed to resolve build recipe: " ++ showJs rn

/-- Backfill of a TeX magic step lacking explicit options (lines 384-387):
default arguments are injected and the step is renamed with the `WithArgs`
suffix. -/
def backfillMagicTex (cfg : Config) (t : StepCommand) : StepCommand :=
  if t.args = none then
    { t with args := some cfg.magicArgs, name := texMagicProgramName ++ "WithArgs" }
  else t

/-- Backfill of a BIB magic step lacking explicit options (lines 389-392). -/
def backfillMagicBib (cfg : Config) (t : StepCommand) : StepCommand :=
  if t.args = none then
    { t with args := some cfg.magicBibArgs, name := bibMagicProgramName ++ "WithArgs" }
  else t

/-- The magic-directive branch of `createSteps` (lines 383-396): with a bib
directive the step list is the fixed four-step sequence, otherwise the
single TeX step. -/
def magicSteps (cfg : Config) (mt : StepCommand) (mb : Option StepCommand) : List StepCommand :=
  let t := backfillMagicTex cfg mt
  match mb with
  | some b0 => let b := backfillMagicBib cfg b0; [t, b, t, t]
  | none => [t]

/-- Name lookup of a requested recipe (lines 413-420): filter the
configured recipes by name; an empty filter reports an error naming the
missing recipe but still yields `candidates[0]`, i.e. no recipe. -/
def lookupPhase (cfg : Config) (rn1 : Option String) : Option Recipe × List LogEvent :=
  if strTruthy rn1 then
    let rn := showJs rn1
    let candidates := cfg.recipes.filter fun r => r.name = rn
    (candidates.head?,
     if candidates.length < 1 then
       [.log (resolveFailMsg rn1), .notify (resolveFailMsg rn1)]
     else [])
  else (none, [])

/-- Substring test (JS `String.prototype.match` with an unanchored literal
pattern). -/
def strContainsL (hay pat : List Char) : Bool :=
  hay.tails.any fun t => pat.isPrefixOf t

/-- Lower-casing as used at lines 428 and 430. -/
def lowerData (s : String) : List Char := s.data.map Char.toLower

/-- The regex `rnw|rsweave` applied to a lower-cased recipe name. -/
def matchesRnw (name : String) : Bool :=
  strContainsL (lowerData name) "rnw".data ∨ strContainsL (lowerData name) "rsweave".data

/-- The `weave.jl` alternative of the regex at line 430: `.` matches any
single character except a line terminator. -/
def matchesWeaveDotJl (l : List Char) : Bool :=
  l.tails.any fun t =>
    "weave".data.isPrefixOf t &&
      (match t.drop 5 with
       | c :: rest => (if c = '\n' then false else true) && "jl".data.isPrefixOf rest
       | [] => false)

/-- The regex `jnw|jlweave|weave.jl` applied to a lower-cased recipe name. -/
def matchesJlweave (name : String) : Bool :=
  strContainsL (lowerData name) "jnw".data ∨ strContainsL (lowerData name) "jlweave".data ∨
    matchesWeaveDotJl (lowerData name)

/-- The language-specific candidate filter of the first-recipe fallback
(lines 426-431). -/
def languageCandidates (cfg : Config) (languageId : String) : List Recipe :=
  if languageId = "rsweave" then cfg.recipes.filter fun r => matchesRnw r.name
  else if languageId = "jlweave" then cfg.recipes.filter fun r => matchesJlweave r.name
  else cfg.recipes

/-- The fallback block of lines 421-438: when no recipe was found by name,
try the previously used recipe under the `lastUsed` default policy, then
the first (language-filtered) recipe under the `first` policy or as a
catch-all. -/
def fallbackPhase (cfg : Config) (prev : Option Recipe) (languageId : String)
    (rn1 : Option String) (r0 : Option Recipe) : Option Recipe × List LogEvent :=
  if r0 = none then
    let r1 := if cfg.defaultRecipeName = "lastUsed" then prev else none
    if cfg.defaultRecipeName = "first" ∨ r1 = none then
      let candidates := languageCandidates cfg languageId
      (candidates.head?,
       if candidates.length < 1 then
         [.log (resolveFailMsg rn1), .notify (resolveFailMsg rn1)]
       else [])
    else (r1, [])
  else (r0, [])

/-- The skip messages of lines 449-450. -/
def skipLogMsg (tool recipeName : String) : String :=
  "Skipping undefined tool: " ++ tool ++ " in " ++ recipeName

/-- The skip notification of line 450. -/
def skipNotifyMsg (tool recipeName : String) : String :=
  "Skipping undefined tool \"" ++ tool ++ "\" in recipe \"" ++ recipeName ++ ".\""

/-- One iteration of the tool-expansion loop (lines 445-457). -/
def expandToolsStep (cfg : Config) (recipeName : String)
    (acc : List StepCommand × List LogEvent) (tool : ToolRef) :
    List StepCommand × List LogEvent :=
  match tool with
  | .byName s =>
    let candidates := cfg.tools.filter fun c => c.name = s
    if candidates.length < 1 then
      (acc.1, acc.2 ++ [.log (skipLogMsg s recipeName), .notify (skipNotifyMsg s recipeName)])
    else
      match candidates.head? with
      | some t => (acc.1 ++ [t], acc.2)
      | none => (acc.1, acc.2)
  | .inline t => (acc.1 ++ [t], acc.2)

/-- Tool expansion (lines 445-457): string references are looked up among
the configured tools, a missing tool is reported and skipped, inline tools
are used as-is. -/
def expandTools (cfg : Config) (r : Recipe) : List StepCommand × List LogEvent :=
  r.tools.foldl (expandToolsStep cfg r.name) ([], [])

/-- The LuaLaTeX detection of lines 497-502. -/
def isLuaLatexArgs (as : List String) : Bool :=
  as.contains "-lualatex" ∨ as.contains "-pdflua" ∨ as.contains "-pdflualatex" ∨
  as.contains "--lualatex" ∨ as.contains "--pdflua" ∨ as.contains "--pdflualatex"

/-- Per-step materialization (lines 465-507): docker substitution of the
`latexmk` command, placeholder substitution in arguments and (truthy)
environment values, and the MiKTeX `--max-print-line` prepending when the
safety option is enabled (which also forces an argument list into
existence).  Docker informational log lines are elided. -/
def materializeStep (b : BuilderState) (cfg : Config) (rap : String → String)
    (step0 : StepCommand) : StepCommand :=
  let step1 :=
    if cfg.dockerEnabled ∧ step0.command = "latexmk" then
      { step0 with command := b.dockerLatexmkCommand }
    else step0
  let step2 :=
    match step1.args with
    | some as => { step1 with args := some (as.map rap) }
    | none => step1
  let step3 :=
    match step2.env with
    | some e =>
      { step2 with env := some (e.map fun kv => (kv.1, if kv.2 = "" then kv.2 else rap kv.2)) }
    | none => step2
  if cfg.maxPrintLineEnabled then
    let as := step3.args.getD []
    if b.isMiktex ∧ ((step3.command = "latexmk" ∧ ¬ isLuaLatexArgs as) ∨ step3.command = "pdflatex") then
      { step3 with args := some (("--max-print-line=" ++ maxPrintLine) :: as) }
    else
      { step3 with args := some as }
  else step3

/-- The recipe branch of `createSteps` (lines 397-457 followed by the
common materialization tail): the zero-recipes check, the reset of the
previously-used-recipe memory on a language change, the reassignment of
`recipeName` from a non-sentinel default, name lookup, fallback, memory
update and tool expansion.  Returns the resolved steps (or `none` for the
`undefined` failure result), the updated builder state and the report
events in order. -/
def resolveFromRecipes (b : BuilderState) (cfg : Config) (rap : String → String)
    (languageId : String) (recipeName0 : Option String) :
    Option (List StepCommand) × BuilderState × List LogEvent :=
  if cfg.recipes.length < 1 then
    (none, b, [.log "No recipes defined.", .notify "No recipes defined."])
  else
    let b1 :=
      if ¬ (b.previousLanguageId = some languageId) then
        { b with previouslyUsedRecipe := none }
      else b
    let rn1 :=
      if strTruthy recipeName0 = false ∧ ¬ (cfg.defaultRecipeName = "first") ∧
          ¬ (cfg.defaultRecipeName = "lastUsed") then
        some cfg.defaultRecipeName
      else recipeName0
    let lk := lookupPhase cfg rn1
    let fb := fallbackPhase cfg b1.previouslyUsedRecipe languageId rn1 lk.1
    match fb.1 with
    | none => (none, b1, lk.2 ++ fb.2)
    | some recipe =>
      let b2 := { b1 with previouslyUsedRecipe := some recipe,
                          previousLanguageId := some languageId }
      let ex := expandTools cfg recipe
      (some (ex.1.map (materializeStep b2 cfg rap)), b2, lk.2 ++ fb.2 ++ ex.2)

/-- `createSteps` (builder.ts lines 378-509): directive-based resolution is
attempted first when no recipe name was requested and recipe usage is not
forced; otherwise resolution goes through the configured recipes. -/
def createSteps (b : BuilderState) (cfg : Config) (rap : String → String)
    (lines : List String) (languageId : String) (recipeName0 : Option String) :
    Option (List StepCommand) × BuilderState × List LogEvent :=
  let magic := findProgramMagic lines
  match recipeName0, magic.1, cfg.forceRecipeUsage with
  | none, some mt, false =>
    (some ((magicSteps cfg mt magic.2).map (materializeStep b cfg rap)), b, [])
  | _, _, _ => resolveFromRecipes b cfg rap languageId recipeName0

/-! Section: step execution (`buildStep`, builder.ts lines 239-354)

`buildStep` first reads `steps[index]` (lines 249-251); in JS an
out-of-bounds index yields `undefined` and the immediate `.command` access
throws a TypeError, which propagates to the caller.  It then assembles the
spawn environment (252-261) and chooses between a shell invocation for
exactly-named magic steps and a plain argument-vector invocation
(262-280). -/

deriving instance DecidableEq for Except

/-- The first access `steps[index].command` of buildStep (line 250):
in bounds it denotes the step, out of bounds it throws. -/
def buildStepFirstAccess (steps : List StepCommand) (index : Nat) :
    Except String StepCommand :=
  match steps.get? index with
  | some s => Except.ok s
  | none => Except.error "TypeError: cannot read command of undefined"

/-- One environment-object update `envVars[key] = value`. -/
def envUpdate (f : String → Option String) (k v : String) : String → Option String :=
  fun x => if x = k then some v else f x

/-- The spawn environment of buildStep lines 252-261: a copy of
`process.env`, overwritten by the step-level overrides in insertion order,
and then unconditionally `envVars['max_print_line'] = maxPrintLine`. -/
def buildEnvVars (penv : String → Option String)
    (stepEnv : Option (List (String × String))) : String → Option String :=
  let e1 :=
    match stepEnv with
    | some l => l.foldl (fun acc kv => envUpdate acc kv.1 kv.2) penv
    | none => penv
  envUpdate e1 "max_print_line" maxPrintLine

/-- How a step's process is spawned: through a shell with a single
concatenated command line, or with an explicit argument vector. -/
inductive SpawnMode where
  | shell (cmdline : String)
  | vector (command : String) (args : Option (List String))
deriving DecidableEq, Repr

/-- JS `args[0]` of a (truthy, possibly empty) array, interpolated into a
string: an empty array yields the string `undefined`. -/
def jsFirstArg : List String → String
  | [] => "undefined"
  | a :: _ => a

/-- The spawn decision of buildStep lines 262-280: a step named exactly
`TeXMagicProgram` or `BibMagicProgram` is run through a shell with the
command concatenated with `args[0]`, every other step is run with its full
argument vector and no shell.  The working-directory computation and the
environment (`buildEnvVars`) are orthogonal and elided here. -/
def spawnMode (step : StepCommand) : SpawnMode :=
  if step.name = texMagicProgramName ∨ step.name = bibMagicProgramName then
    SpawnMode.shell
      (match step.args with
       | some as => step.command ++ " " ++ jsFirstArg as
       | none => step.command)
  else SpawnMode.vector step.command step.args

/-! Section: the attempt state machine (`buildStep` exit handler, lines 307-353)

The exit handler of each step's process drives the attempt: on a non-zero
exit it either retries the whole recipe from step 0 (clean-and-retry
enabled, retry guard `disableCleanAndRetry` unset, signal not SIGTERM) or
terminates the attempt; on a zero exit it finishes after the last step or
advances to the next one.  Exit code and signal are `number | null` and
`Signals | null` in the source, modelled as options. -/

structure AttemptState where
  index : Nat
  disableCleanAndRetry : Bool
deriving DecidableEq, Repr

/-- The continuation chosen by the exit handler. -/
inductive ExitAction where
  | running (s : AttemptState)
  | succeeded
  | failed
deriving DecidableEq, Repr

/-- The exit handler of buildStep (lines 307-353) as a function of the
attempt state and the process outcome.  `exitCode ≠ 0` in JS is also true
for `null`; the retry branch re-enters `buildStep` at index 0 with the
retry guard set (lines 316-324); a SIGTERM failure and a guarded or
disabled failure release the mutex and end the attempt (lines 325-338); a
zero exit at the last index finishes, otherwise the next step starts
(lines 339-352). -/
def onExit (cfg : Config) (steps : List StepCommand) (s : AttemptState)
    (exitCode : Option Int) (signal : Option String) : ExitAction :=
  if ¬ (exitCode = some 0) then
    if s.disableCleanAndRetry = false ∧ cfg.cleanAndRetryEnabled = true then
      if ¬ (signal = some "SIGTERM") then
        ExitAction.running ⟨0, true⟩
      else ExitAction.failed
    else ExitAction.failed
  else
    if s.index = steps.length - 1 then ExitAction.succeeded
    else ExitAction.running ⟨s.index + 1, s.disableCleanAndRetry⟩

/-- Result of driving an attempt through a finite list of process
outcomes: terminal success/failure (with the unconsumed outcomes) or still
awaiting the next outcome. -/
inductive RunResult where
  | pending (s : AttemptState)
  | succeeded (rest : List (Option Int × Option String))
  | failed (rest : List (Option Int × Option String))
deriving DecidableEq, Repr

/-- Drive the attempt state machine over a list of process outcomes. -/
def runAttempt (cfg : Config) (steps : List StepCommand) :
    AttemptState → List (Option Int × Option String) → RunResult
  | s, [] => RunResult.pending s
  | s, o :: os =>
    match onExit cfg steps s o.1 o.2 with
    | ExitAction.running s2 => runAttempt cfg steps s2 os
    | ExitAction.succeeded => RunResult.succeeded os
    | ExitAction.failed => RunResult.failed os

/-- Whether the exit handler takes the clean-and-retry branch for this
outcome (the condition of lines 316-318). -/
def isRetryTransition (cfg : Config) (s : AttemptState)
    (exitCode : Option Int) (signal : Option String) : Bool :=
  if ¬ (exitCode = some 0) ∧ s.disableCleanAndRetry = false ∧
      cfg.cleanAndRetryEnabled = true ∧ ¬ (signal = some "SIGTERM") then
    true
  else false

/-- Number of clean-and-retry cycles triggered while driving the attempt
over a list of outcomes. -/
def countRetries (cfg : Config) (steps : List StepCommand) :
    AttemptState → List (Option Int × Option String) → Nat
  | _, [] => 0
  | s, o :: os =>
    (if isRetryTransition cfg s o.1 o.2 then 1 else 0) +
      match onExit cfg steps s o.1 o.2 with
      | ExitAction.running s2 => countRetries cfg steps s2 os
      | _ => 0

/-! Section: the build request (`build` and `buildInitiator`, lines 177-229)

`build` rejects a request when another one is already waiting, acquires
the build mutex via `preprocess`, clears the retry guard, prepares output
directories, and calls `buildInitiator`, which resolves steps via
`createSteps`.  A `undefined` step list makes `buildInitiator` return
after logging, WITHOUT invoking the mutex-release callback; an exception
(e.g. the out-of-bounds read of an empty step list in `buildStep`) is
caught by `build`, which logs, releases the mutex once and re-raises. -/

/-- Observable effects of the synchronous phase of one admitted `build`
call, after the build mutex was acquired: how many times the release
callback was invoked during that phase, whether a process was spawned,
whether an exception was re-raised to the caller, and the report events. -/
structure BuildRequestEffects where
  released : Nat
  spawned : Bool
  thrown : Bool
  events : List LogEvent
deriving DecidableEq, Repr

/-- The synchronous phase of an admitted `build` call (lines 198-228
together with `buildInitiator`, lines 177-184, and the first access of
`buildStep`): step resolution, then either the invalid-toolchain return,
or the first process spawn, or the caught-and-rethrown exception path. -/
def buildRun (b : BuilderState) (cfg : Config) (rap : String → String)
    (lines : List String) (languageId : String) (recipeName0 : Option String) :
    BuildRequestEffects × BuilderState :=
  match createSteps b cfg rap lines languageId recipeName0 with
  | (none, b2, evs) =>
    ({ released := 0, spawned := false, thrown := false,
       events := evs ++ [.log "Invalid toolchain."] }, b2)
  | (some steps, b2, evs) =>
    match buildStepFirstAccess steps 0 with
    | Except.error _ =>
      ({ released := 1, spawned := false, thrown := true,
         events := evs ++
           [.log "Unexpected Error: please see the console log of the Developer Tools of VS Code."] }, b2)
    | Except.ok _ =>
      ({ released := 0, spawned := true, thrown := false, events := evs }, b2)

/-! Section: the exit handler of `buildWithExternalCommand` (lines 152-174)

Its success branch refreshes the viewer (or runs `buildFinished`) and
invokes `releaseBuildMutex()` in a `finally`; both branches then fall
through to lines 172-173, which invoke `releaseBuildMutex()` once more
unconditionally. -/

/-- Events of the external-command exit handler, in program order. -/
inductive ExtEvent where
  | parseLog
  | logMsg (msg : String)
  | statusError
  | statusCheck
  | notifyError (msg : String)
  | refreshViewer
  | buildFinishedRun
  | release
deriving DecidableEq, Repr

/-- The `exit` handler of `buildWithExternalCommand` (lines 152-174) as
the ordered list of its effects, for a handler run in which
`buildFinished` completes normally. -/
def externalExitHandler (exitCode : Option Int) (rootFile : Option String) :
    List ExtEvent :=
  [ExtEvent.parseLog] ++
    (if ¬ (exitCode = some 0) then
      [ExtEvent.logMsg "Build returns with error", ExtEvent.statusError,
       ExtEvent.notifyError "Build terminated with error."]
    else
      [ExtEvent.logMsg "Successfully built", ExtEvent.statusCheck] ++
        (match rootFile with
         | none => [ExtEvent.refreshViewer]
         | some _ => [ExtEvent.buildFinishedRun]) ++
        [ExtEvent.release]) ++
    [ExtEvent.release]

/-- Number of mutex-release invocations in a list of handler events. -/
def releaseCount (evs : List ExtEvent) : Nat :=
  evs.countP fun e => e = ExtEvent.release

/-! Section: the serialization gate (`preprocess` and the admission check)

Modelled from the spec: the two counting mutexes come from the vendored
`await-semaphore` library (src/lib/await-semaphore), which is not part of
this excerpt; per the spec, `acquire` blocks until the mutex is free and
the returned callback frees it.  A build request first checks
`isWaitingForBuildToFinish` (the admission check of lines 194-197, reading
`waitingForBuildToFinishMutex.count < 1`) and bails out when another
request already holds the waiting mutex; an admitted request acquires the
waiting mutex, then blocks on the build mutex, and releases the waiting
mutex once the build mutex is held (`preprocess`, lines 95-104).  The
check-then-acquire pair of one request is taken as one atomic transition. -/

/-- Phase of one build request with respect to the gate. -/
inductive Phase where
  | start
  | rejected
  | admitted
  | locked
  | done
deriving DecidableEq, Repr, Fintype

/-- Gate state for two concurrent build requests `A` and `B`:
`waitingHeld` is `waitingForBuildToFinishMutex.count < 1`, `buildHeld` is
the held build mutex. -/
structure GateState where
  waitingHeld : Bool
  buildHeld : Bool
  pA : Phase
  pB : Phase
deriving DecidableEq, Repr

/-- Phase of request `i` (`true` is `A`). -/
def GateState.phase (g : GateState) (i : Bool) : Phase :=
  if i then g.pA else g.pB

/-- Replace the phase of request `i`. -/
def GateState.setPhase (g : GateState) (i : Bool) (p : Phase) : GateState :=
  if i then { g with pA := p } else { g with pB := p }

/-- Modelled from the spec: the `Mutex` of the vendored await-semaphore
library (src/lib/await-semaphore, not in the excerpt) blocks on `acquire`
until free and frees on release.  Interleaving semantics of the gate:
admission (check passes, waiting mutex acquired), rejection (check fails,
immediate return), build-mutex acquisition (waiting mutex released at the
same point, per `preprocess`), and completion (build mutex released). -/
inductive GStep : GateState → GateState → Prop where
  | checkPass (g : GateState) (i : Bool) :
      g.phase i = Phase.start → g.waitingHeld = false →
      GStep g { g.setPhase i Phase.admitted with waitingHeld := true }
  | reject (g : GateState) (i : Bool) :
      g.phase i = Phase.start → g.waitingHeld = true →
      GStep g (g.setPhase i Phase.rejected)
  | acquire (g : GateState) (i : Bool) :
      g.phase i = Phase.admitted → g.buildHeld = false →
      GStep g { g.setPhase i Phase.locked with waitingHeld := false, buildHeld := true }
  | finish (g : GateState) (i : Bool) :
      g.phase i = Phase.locked →
      GStep g { g.setPhase i Phase.done with buildHeld := false }

/-- Initial gate state: both mutexes free, both requests not yet arrived. -/
def initGate : GateState :=
  { waitingHeld := false, buildHeld := false, pA := Phase.start, pB := Phase.start }

/-- Reachable gate states. -/
inductive GateReach : GateState → Prop where
  | init : GateReach initGate
  | step {g g2 : GateState} : GateReach g → GStep g g2 → GateReach g2

/-- Gate invariant: the waiting mutex is held exactly when a request is
between admission and build-lock acquisition, the build mutex exactly when
a request is building, and each of those stages holds at most one
request. -/
def gateInv (g : GateState) : Prop :=
  (g.waitingHeld = true ↔ (g.pA = Phase.admitted ∨ g.pB = Phase.admitted)) ∧
  (g.buildHeld = true ↔ (g.pA = Phase.locked ∨ g.pB = Phase.locked)) ∧
  ¬ (g.pA = Phase.admitted ∧ g.pB = Phase.admitted) ∧
  ¬ (g.pA = Phase.locked ∧ g.pB = Phase.locked)

/-! Section: helper lemmas -/

/-- Value of the last occurrence of a key in an association list. -/
def lookupLast (l : List (String × String)) (k : String) : Option String :=
  (l.reverse.find? fun kv => kv.1 == k).map fun kv => kv.2

theorem find?_append (p : String × String → Bool) (l1 l2 : List (String × String)) :
    (l1 ++ l2).find? p =
      match l1.find? p with
      | some x => some x
      | none => l2.find? p := by
  induction l1 with
  | nil => simp
  | cons a t ih =>
    by_cases h : p a = true
    · simp [List.find?, h]
    · simp only [Bool.not_eq_true] at h
      simp [List.find?, h, ih]

theorem foldl_envUpdate (l : List (String × String)) :
    ∀ (penv : String → Option String) (k : String),
      (l.foldl (fun acc kv => envUpdate acc kv.1 kv.2) penv) k =
        match lookupLast l k with
        | some v => some v
        | none => penv k := by
  induction l with
  | nil => intro penv k; simp [lookupLast]
  | cons kv t ih =>
    intro penv k
    simp only [List.foldl_cons]
    rw [ih]
    unfold lookupLast
    simp only [List.reverse_cons]
    rw [find?_append]
    cases hf : t.reverse.find? (fun x => x.1 == k) with
    | some x => simp
    | none =>
      by_cases hk : kv.1 = k
      · simp [List.find?, hk, envUpdate]
      · have : (kv.1 == k) = false := by simpa using hk
        simp [List.find?, this, envUpdate, hk]
        intro h
        exact absurd h.symm hk

/-- C10.  Every recipe-step process environment assembled by `buildStep`
maps `max_print_line` to `'10000'` unconditionally (the assembly at lines
252-261 never consults the `maxPrintLine` safety option), and for every
other key a step-level override (its last occurrence) takes precedence
over the inherited process environment. -/
theorem c10_env_max_print_line (penv : String → Option String) :
    (∀ stepEnv, buildEnvVars penv stepEnv "max_print_line" = some maxPrintLine) ∧
    (∀ l k, ¬ k = "max_print_line" →
      buildEnvVars penv (some l) k =
        match lookupLast l k with
        | some v => some v
        | none => penv k) ∧
    (∀ k, ¬ k = "max_print_line" → buildEnvVars penv none k = penv k) := by
  refine ⟨?_, ?_, ?_⟩
  · intro stepEnv
    cases stepEnv <;> simp [buildEnvVars, envUpdate]
  · intro l k hk
    simp only [buildEnvVars, envUpdate, if_neg hk]
    exact foldl_envUpdate l penv k
  · intro k hk
    simp [buildEnvVars, envUpdate, hk]

/-- Witness for C10 at a concrete environment. -/
theorem c10_env_max_print_line_witness :
    buildEnvVars (fun _ => some "fromProcess") (some [("A", "1"), ("A", "2")]) "max_print_line" =
      some "10000" ∧
    ¬ ("A" : String) = "max_print_line" ∧
    buildEnvVars (fun _ => some "fromProcess") (some [("A", "1"), ("A", "2")]) "A" = some "2" := by
  refine ⟨(c10_env_max_print_line _).1 _, by decide, ?_⟩
  have h := (c10_env_max_print_line (fun _ => some "fromProcess")).2.1
      [("A", "1"), ("A", "2")] "A" (by decide)
  rw [h]; rfl

/-- C8.  On the successful-exit path of the process-exit handler of
`buildWithExternalCommand`, the build-mutex release callback is invoked
twice for the single acquisition of that request: once inside the
conditional success branch (line 169) and once unconditionally afterwards
(line 173). -/
theorem c8_double_release (exitCode : Option Int) (rootFile : Option String)
    (h : exitCode = some 0) :
    releaseCount (externalExitHandler exitCode rootFile) = 2 := by
  subst h
  cases rootFile <;> rfl

/-- Witness for C8 at a zero exit code. -/
theorem c8_double_release_witness :
    (some (0 : Int) : Option Int) = some 0 ∧
    releaseCount (externalExitHandler (some 0) (some "/tmp/main.tex")) = 2 :=
  ⟨rfl, c8_double_release (some 0) (some "/tmp/main.tex") rfl⟩

/-- Counterexample to C9 as stated: a step carrying the `WithArgs` suffix
(`TeXMagicProgramWithArgs`) does not take the shell-concatenation path at
all; it is spawned with its full argument vector, so its second argument
is not ignored and no shell command line `command ++ args[0]` is built. -/
theorem c9_counterexample :
    spawnMode ⟨"TeXMagicProgramWithArgs", "pdflatex", some ["-a", "-b"], none⟩ =
      SpawnMode.vector "pdflatex" (some ["-a", "-b"]) ∧
    ¬ spawnMode ⟨"TeXMagicProgramWithArgs", "pdflatex", some ["-a", "-b"], none⟩ =
      SpawnMode.shell "pdflatex -a" := by
  constructor
  · rfl
  · decide

/-- C9 (amended).  Only a step named exactly `TeXMagicProgram` or
`BibMagicProgram` is executed through a shell whose command line is the
step's command concatenated with only the first element of its argument
array (further elements are ignored); a step carrying the `WithArgs`
suffix is spawned with its full argument vector instead. -/
theorem c9_amended_magic_shell_line :
    (∀ (step : StepCommand) (a : String) (rest : List String),
      (step.name = texMagicProgramName ∨ step.name = bibMagicProgramName) →
      step.args = some (a :: rest) →
      spawnMode step = SpawnMode.shell (step.command ++ " " ++ a)) ∧
    (∀ step : StepCommand,
      (step.name = texMagicProgramName ++ "WithArgs" ∨
       step.name = bibMagicProgramName ++ "WithArgs") →
      spawnMode step = SpawnMode.vector step.command step.args) := by
  constructor
  · intro step a rest hname hargs
    simp [spawnMode, hname, hargs, jsFirstArg]
  · intro step hname
    have hfalse : ¬ (step.name = texMagicProgramName ∨ step.name = bibMagicProgramName) := by
      rcases hname with h | h <;> rw [h] <;> decide
    simp [spawnMode, hfalse]

/-- Witness for C9 (amended): a directive step with an options string and an
extra argument keeps only the first element on the shell line. -/
theorem c9_amended_magic_shell_line_witness :
    (⟨"TeXMagicProgram", "xelatex", some ["-one", "-two"], none⟩ : StepCommand).name =
        texMagicProgramName ∧
    spawnMode ⟨"TeXMagicProgram", "xelatex", some ["-one", "-two"], none⟩ =
      SpawnMode.shell "xelatex -one" := by
  refine ⟨rfl, ?_⟩
  have h := (c9_amended_magic_shell_line).1
      ⟨"TeXMagicProgram", "xelatex", some ["-one", "-two"], none⟩ "-one" ["-two"]
      (Or.inl rfl) rfl
  simpa using h

/-- Once the retry guard is set, the exit handler never unsets it along a
continuing run. -/
theorem onExit_preserves_guard (cfg : Config) (steps : List StepCommand)
    (s s2 : AttemptState) (c : Option Int) (sig : Option String)
    (hd : s.disableCleanAndRetry = true)
    (h : onExit cfg steps s c sig = ExitAction.running s2) :
    s2.disableCleanAndRetry = true := by
  unfold onExit at h
  split_ifs at h with h1 h2 h3 h4 <;> (injection h with h5; rw [← h5]; try exact hd)

/-- With the retry guard set, no further retry is ever counted. -/
theorem countRetries_guard_zero (cfg : Config) (steps : List StepCommand) :
    ∀ (os : List (Option Int × Option String)) (s : AttemptState),
      s.disableCleanAndRetry = true → countRetries cfg steps s os = 0 := by
  intro os
  induction os with
  | nil => intro s _; rfl
  | cons o t ih =>
    intro s hd
    unfold countRetries
    have hr : isRetryTransition cfg s o.1 o.2 = false := by
      unfold isRetryTransition
      split_ifs with h
      · exact absurd hd (by simp [h.2.1])
      · rfl
    rw [hr]
    simp only [if_neg (by simp : ¬ (false = true)), Nat.zero_add]
    cases h : onExit cfg steps s o.1 o.2 with
    | running s2 => exact ih s2 (onExit_preserves_guard cfg steps s s2 o.1 o.2 hd h)
    | succeeded => rfl
    | failed => rfl

/-- A retry transition restarts at step 0 with the guard set. -/
theorem onExit_retry (cfg : Config) (steps : List StepCommand) (s : AttemptState)
    (c : Option Int) (sig : Option String)
    (h : isRetryTransition cfg s c sig = true) :
    onExit cfg steps s c sig = ExitAction.running ⟨0, true⟩ := by
  unfold isRetryTransition at h
  split_ifs at h with hc
  obtain ⟨h1, h2, h3, h4⟩ := hc
  unfold onExit
  rw [if_pos h1, if_pos ⟨h2, h3⟩, if_pos h4]

/-- A non-zero exit that is not a retry transition terminates the attempt. -/
theorem onExit_fail (cfg : Config) (steps : List StepCommand) (s : AttemptState)
    (c : Option Int) (sig : Option String) (hc : ¬ c = some 0)
    (h : isRetryTransition cfg s c sig = false) :
    onExit cfg steps s c sig = ExitAction.failed := by
  have hcond : ¬ (¬ c = some 0 ∧ s.disableCleanAndRetry = false ∧
      cfg.cleanAndRetryEnabled = true ∧ ¬ sig = some "SIGTERM") := by
    intro hx
    unfold isRetryTransition at h
    rw [if_pos hx] at h
    cases h
  unfold onExit
  rw [if_pos hc]
  push_neg at hcond
  by_cases h2 : s.disableCleanAndRetry = false ∧ cfg.cleanAndRetryEnabled = true
  · rw [if_pos h2]
    rw [if_neg (not_not_intro (hcond hc h2.1 h2.2))]
  · rw [if_neg h2]

/-- Any attempt run triggers at most one retry. -/
theorem countRetries_le_one (cfg : Config) (steps : List StepCommand) :
    ∀ (os : List (Option Int × Option String)) (s : AttemptState),
      countRetries cfg steps s os ≤ 1 := by
  intro os
  induction os with
  | nil => intro s; simp [countRetries]
  | cons o t ih =>
    intro s
    unfold countRetries
    by_cases hr : isRetryTransition cfg s o.1 o.2 = true
    · rw [if_pos hr, onExit_retry cfg steps s o.1 o.2 hr]
      show 1 + countRetries cfg steps ⟨0, true⟩ t ≤ 1
      rw [countRetries_guard_zero cfg steps t ⟨0, true⟩ rfl]
    · rw [if_neg hr]
      simp only [Nat.zero_add]
      cases h : onExit cfg steps s o.1 o.2 with
      | running s2 => exact ih s2
      | succeeded => exact Nat.zero_le 1
      | failed => exact Nat.zero_le 1

/-- C2.  With the clean-and-retry policy enabled, a first non-zero exit
with the retry guard unset and a non-SIGTERM signal restarts the full
recipe from step 0 with the guard set; a second non-zero exit then
terminates the attempt in the failed state regardless of any further
outcomes, and no attempt run ever triggers more than one retry cycle. -/
theorem c2_at_most_one_retry (cfg : Config) (steps : List StepCommand) (i : Nat)
    (c1 c2 : Option Int) (s1 s2 : Option String)
    (rest : List (Option Int × Option String))
    (hen : cfg.cleanAndRetryEnabled = true)
    (h1 : ¬ c1 = some 0) (hs1 : ¬ s1 = some "SIGTERM") (h2 : ¬ c2 = some 0) :
    onExit cfg steps ⟨i, false⟩ c1 s1 = ExitAction.running ⟨0, true⟩ ∧
    runAttempt cfg steps ⟨i, false⟩ ((c1, s1) :: (c2, s2) :: rest) =
      RunResult.failed rest ∧
    (∀ (os : List (Option Int × Option String)) (s : AttemptState),
      countRetries cfg steps s os ≤ 1) := by
  have hfirst : onExit cfg steps ⟨i, false⟩ c1 s1 = ExitAction.running ⟨0, true⟩ := by
    apply onExit_retry
    unfold isRetryTransition
    rw [if_pos ⟨h1, rfl, hen, hs1⟩]
  have hsecond : onExit cfg steps ⟨0, true⟩ c2 s2 = ExitAction.failed := by
    apply onExit_fail cfg steps ⟨0, true⟩ c2 s2 h2
    unfold isRetryTransition
    rw [if_neg (by intro hx; exact absurd hx.2.1 (by decide))]
  refine ⟨hfirst, ?_, countRetries_le_one cfg steps⟩
  unfold runAttempt
  rw [hfirst]
  unfold runAttempt
  rw [hsecond]

/-- Witness for C2: a two-step recipe whose single configured run fails
twice with exit code 1. -/
theorem c2_at_most_one_retry_witness :
    (({ forceRecipeUsage := false, magicArgs := [], magicBibArgs := [], recipes := [],
        defaultRecipeName := "first", tools := [], dockerEnabled := false,
        maxPrintLineEnabled := false, cleanAndRetryEnabled := true,
        autoCleanRun := "never" } : Config)).cleanAndRetryEnabled = true ∧
    runAttempt
        { forceRecipeUsage := false, magicArgs := [], magicBibArgs := [], recipes := [],
          defaultRecipeName := "first", tools := [], dockerEnabled := false,
          maxPrintLineEnabled := false, cleanAndRetryEnabled := true,
          autoCleanRun := "never" }
        [⟨"latexmk", "latexmk", none, none⟩] ⟨0, false⟩
        [(some 1, none), (some 1, none), (some 0, none)] =
      RunResult.failed [(some 0, none)] := by
  refine ⟨rfl, ?_⟩
  exact (c2_at_most_one_retry _ [⟨"latexmk", "latexmk", none, none⟩] 0 (some 1) (some 1)
      none none [(some 0, none)] rfl (by decide) (by decide) (by decide)).2.1

/-- Materialization never changes a step's display name. -/
theorem materializeStep_name (b : BuilderState) (cfg : Config) (rap : String → String)
    (s : StepCommand) : (materializeStep b cfg rap s).name = s.name := by
  simp only [materializeStep]
  repeat' split
  all_goals rfl

/-- A TeX step produced by the directive scanner is named
`texMagicProgramName`. -/
theorem findProgramMagic_tex_name (lines : List String) (t : StepCommand)
    (x : Option StepCommand) (h : findProgramMagic lines = (some t, x)) :
    t.name = texMagicProgramName := by
  unfold findProgramMagic at h
  have h1 := congrArg Prod.fst h
  simp only at h1
  cases htex : firstMatch (matchProgramLine true) lines with
  | none => rw [htex] at h1; cases h1
  | some a =>
    rw [htex] at h1
    cases hopt : firstMatch (matchOptionsLine true) lines <;>
      (rw [hopt] at h1; injection h1 with h2; rw [← h2])

/-- A BIB step produced by the directive scanner is named
`bibMagicProgramName`. -/
theorem findProgramMagic_bib_name (lines : List String) (t : StepCommand)
    (x : Option StepCommand) (h : findProgramMagic lines = (x, some t)) :
    t.name = bibMagicProgramName := by
  unfold findProgramMagic at h
  have h1 := congrArg Prod.snd h
  simp only at h1
  cases hbib : firstMatch (matchProgramLine false) lines with
  | none => rw [hbib] at h1; cases h1
  | some a =>
    rw [hbib] at h1
    cases hopt : firstMatch (matchOptionsLine false) lines <;>
      (rw [hopt] at h1; injection h1 with h2; rw [← h2])

/-- The backfill keeps the scanner name or renames with the suffix. -/
theorem backfillMagicTex_name (cfg : Config) (t : StepCommand) :
    (backfillMagicTex cfg t).name = texMagicProgramName ++ "WithArgs" ∨
    (backfillMagicTex cfg t).name = t.name := by
  unfold backfillMagicTex
  split
  · exact Or.inl rfl
  · exact Or.inr rfl

/-- The bib backfill keeps the scanner name or renames with the suffix. -/
theorem backfillMagicBib_name (cfg : Config) (t : StepCommand) :
    (backfillMagicBib cfg t).name = bibMagicProgramName ++ "WithArgs" ∨
    (backfillMagicBib cfg t).name = t.name := by
  unfold backfillMagicBib
  split
  · exact Or.inl rfl
  · exact Or.inr rfl

/-- C6.  With no recipe name requested and recipe usage not forced, a root
file carrying both a primary-program and a bibliography-program directive
resolves to exactly four steps in the fixed order [primary, bib, primary,
primary]; with only the primary directive it resolves to the single
primary step. -/
theorem c6_directive_step_order (b : BuilderState) (cfg : Config) (rap : String → String)
    (languageId : String) (hforce : cfg.forceRecipeUsage = false) :
    (∀ lines t bc, findProgramMagic lines = (some t, some bc) →
      ∃ p q, (createSteps b cfg rap lines languageId none).1 = some [p, q, p, p] ∧
        (p.name = texMagicProgramName ∨ p.name = texMagicProgramName ++ "WithArgs") ∧
        (q.name = bibMagicProgramName ∨ q.name = bibMagicProgramName ++ "WithArgs")) ∧
    (∀ lines t, findProgramMagic lines = (some t, none) →
      ∃ p, (createSteps b cfg rap lines languageId none).1 = some [p] ∧
        (p.name = texMagicProgramName ∨ p.name = texMagicProgramName ++ "WithArgs")) := by
  constructor
  · intro lines t bc h
    refine ⟨materializeStep b cfg rap (backfillMagicTex cfg t),
            materializeStep b cfg rap (backfillMagicBib cfg bc), ?_, ?_, ?_⟩
    · simp only [createSteps, h, hforce, magicSteps, List.map]
    · rw [materializeStep_name]
      rcases backfillMagicTex_name cfg t with h2 | h2
      · exact Or.inr h2
      · exact Or.inl (h2.trans (findProgramMagic_tex_name lines t (some bc) h))
    · rw [materializeStep_name]
      rcases backfillMagicBib_name cfg bc with h2 | h2
      · exact Or.inr h2
      · exact Or.inl (h2.trans (findProgramMagic_bib_name lines bc (some t) h))
  · intro lines t h
    refine ⟨materializeStep b cfg rap (backfillMagicTex cfg t), ?_, ?_⟩
    · simp only [createSteps, h, hforce, magicSteps, List.map]
    · rw [materializeStep_name]
      rcases backfillMagicTex_name cfg t with h2 | h2
      · exact Or.inr h2
      · exact Or.inl (h2.trans (findProgramMagic_tex_name lines t none h))

/-- Witness for C6 at a concrete root file with both directives. -/
theorem c6_directive_step_order_witness :
    ({ forceRecipeUsage := false, magicArgs := ["-synctex=1"], magicBibArgs := ["%DOCFILE%"],
       recipes := [], defaultRecipeName := "first", tools := [], dockerEnabled := false,
       maxPrintLineEnabled := false, cleanAndRetryEnabled := false,
       autoCleanRun := "never" } : Config).forceRecipeUsage = false ∧
    ∃ p q, (createSteps ⟨false, none, none, "/x"⟩
        { forceRecipeUsage := false, magicArgs := ["-synctex=1"], magicBibArgs := ["%DOCFILE%"],
          recipes := [], defaultRecipeName := "first", tools := [], dockerEnabled := false,
          maxPrintLineEnabled := false, cleanAndRetryEnabled := false, autoCleanRun := "never" }
        id ["% !TeX program = pdflatex", "% !BIB program = bibtex"] "latex" none).1 =
      some [p, q, p, p] ∧
      (p.name = texMagicProgramName ∨ p.name = texMagicProgramName ++ "WithArgs") ∧
      (q.name = bibMagicProgramName ∨ q.name = bibMagicProgramName ++ "WithArgs") := by
  refine ⟨rfl, ?_⟩
  exact (c6_directive_step_order ⟨false, none, none, "/x"⟩ _ id "latex" rfl).1
    ["% !TeX program = pdflatex", "% !BIB program = bibtex"]
    ⟨texMagicProgramName, "pdflatex", none, none⟩
    ⟨bibMagicProgramName, "bibtex", none, none⟩ (by decide)

/-! Section: concrete fixtures for counterexamples and witnesses -/

/-- An inline tool used by the fixture recipe. -/
def toolT : StepCommand := ⟨"t", "latexmk", none, none⟩

/-- A fixture recipe with one inline tool. -/
def recipeR : Recipe := ⟨"r", [ToolRef.inline toolT]⟩

/-- A baseline configuration: one recipe `r`, a non-sentinel default
recipe name, no docker, no MiKTeX flag. -/
def cfgBase : Config :=
  { forceRecipeUsage := false, magicArgs := ["-synctex=1", "%DOC%"],
    magicBibArgs := ["%DOCFILE%"], recipes := [recipeR], defaultRecipeName := "d",
    tools := [], dockerEnabled := false, maxPrintLineEnabled := false,
    cleanAndRetryEnabled := true, autoCleanRun := "never" }

/-- A baseline builder state. -/
def builder0 : BuilderState := ⟨false, none, none, "/ext/scripts/latexmk"⟩

/-- C1.  Evaluation of the embedded build flow at the failing input: with
zero recipes configured and no magic directive, step resolution fails, the
error is reported via log and notification and no process is spawned —
but the build-mutex release callback is invoked zero times
(`buildInitiator` returns at line 181 without calling it), contradicting
the claimed immediate release. -/
theorem c1_lock_not_released_on_invalid_toolchain :
    buildRun builder0 { cfgBase with recipes := [] } id [] "latex" none =
      ({ released := 0, spawned := false, thrown := false,
         events := [LogEvent.log "No recipes defined.", LogEvent.notify "No recipes defined.",
                    LogEvent.log "Invalid toolchain."] }, builder0) := by
  decide

/-- Counterexample to C5 as stated: with zero recipes configured but a
primary-program magic directive present (no recipe name requested, recipe
usage not forced), resolution succeeds with a step list — the zero-recipes
check is not performed before directive-based resolution. -/
theorem c5_counterexample :
    ({ cfgBase with recipes := [] } : Config).recipes = [] ∧
    (createSteps builder0 { cfgBase with recipes := [] } id
        ["% !TeX program = pdflatex"] "latex" none).1 =
      some [⟨"TeXMagicProgramWithArgs", "pdflatex", some ["-synctex=1", "%DOC%"], none⟩] := by
  decide

/-- C5 (amended).  If zero recipes are configured, every resolution that
takes the recipe branch (a recipe name requested, or no primary directive
found, or recipe usage forced) fails immediately with the reported error
and produces no step list, the zero-recipes check being performed before
any other step of recipe-based resolution; directive-based resolution,
however, runs before that check and can succeed with zero recipes. -/
theorem c5_amended_zero_recipes (b : BuilderState) (cfg : Config) (rap : String → String)
    (languageId : String) (hzero : cfg.recipes = []) :
    (∀ rn, resolveFromRecipes b cfg rap languageId rn =
      (none, b, [LogEvent.log "No recipes defined.", LogEvent.notify "No recipes defined."])) ∧
    (∀ lines rn0,
      (¬ rn0 = none ∨ (findProgramMagic lines).1 = none ∨ cfg.forceRecipeUsage = true) →
      createSteps b cfg rap lines languageId rn0 =
        (none, b, [LogEvent.log "No recipes defined.", LogEvent.notify "No recipes defined."])) := by
  have key : ∀ rn, resolveFromRecipes b cfg rap languageId rn =
      (none, b, [LogEvent.log "No recipes defined.", LogEvent.notify "No recipes defined."]) := by
    intro rn
    simp [resolveFromRecipes, hzero]
  refine ⟨key, ?_⟩
  intro lines rn0 hcase
  cases rn0 with
  | some v => simp only [createSteps]; exact key (some v)
  | none =>
    cases hmag : (findProgramMagic lines).1 with
    | none => simp only [createSteps, hmag]; exact key none
    | some mt =>
      cases hforce : cfg.forceRecipeUsage with
      | true => simp only [createSteps, hmag, hforce]; exact key none
      | false =>
        rcases hcase with h | h | h
        · exact absurd rfl h
        · rw [hmag] at h; cases h
        · rw [hforce] at h; cases h

/-- Witness for C5 (amended) at a concrete zero-recipe configuration. -/
theorem c5_amended_zero_recipes_witness :
    ({ cfgBase with recipes := [] } : Config).recipes = [] ∧
    createSteps builder0 { cfgBase with recipes := [] } id [] "latex" (some "x") =
      (none, builder0,
        [LogEvent.log "No recipes defined.", LogEvent.notify "No recipes defined."]) := by
  refine ⟨rfl, ?_⟩
  exact (c5_amended_zero_recipes builder0 { cfgBase with recipes := [] } id "latex" rfl).2
    [] (some "x") (Or.inl (by decide))

/-- Counterexample to C4 as stated: requesting the recipe name `missing`,
which matches none of the configured recipes, reports the error naming it,
but a step list IS produced — from the first configured recipe `r`. -/
theorem c4_counterexample :
    (createSteps builder0 cfgBase id [] "latex" (some "missing")).1 = some [toolT] ∧
    (createSteps builder0 cfgBase id [] "latex" (some "missing")).2.2 =
      [LogEvent.log (resolveFailMsg (some "missing")),
       LogEvent.notify (resolveFailMsg (some "missing"))] ∧
    ¬ recipeR.name = "missing" := by
  decide

/-- C4 (amended).  A requested recipe name matching none of the configured
recipes makes the name lookup report an error naming the missing recipe
and yield no recipe, but resolution then falls back: under a non-`lastUsed`
default policy the fallback selects the first language-matching configured
recipe, so a step list may still be produced from another recipe; the
failure report naming the missing recipe is always among the emitted
events. -/
theorem c4_amended_missing_recipe (cfg : Config) (rn : String) (hT : ¬ rn = "")
    (hmiss : cfg.recipes.filter (fun r => r.name = rn) = []) :
    lookupPhase cfg (some rn) =
      (none, [LogEvent.log (resolveFailMsg (some rn)),
              LogEvent.notify (resolveFailMsg (some rn))]) ∧
    (∀ prev languageId, ¬ cfg.defaultRecipeName = "lastUsed" →
      (fallbackPhase cfg prev languageId (some rn) none).1 =
        (languageCandidates cfg languageId).head?) ∧
    (∀ b rap languageId, ¬ cfg.recipes = [] →
      LogEvent.log (resolveFailMsg (some rn)) ∈
        (resolveFromRecipes b cfg rap languageId (some rn)).2.2) := by
  have hTr : strTruthy (some rn) = true := by simp [strTruthy, hT]
  have h1 : lookupPhase cfg (some rn) =
      (none, [LogEvent.log (resolveFailMsg (some rn)),
              LogEvent.notify (resolveFailMsg (some rn))]) := by
    simp [lookupPhase, hTr, showJs, hmiss]
  refine ⟨h1, ?_, ?_⟩
  · intro prev languageId hdef
    simp [fallbackPhase, hdef]
  · intro b rap languageId hne
    have hlen : ¬ cfg.recipes.length < 1 := by
      have := List.length_pos.mpr hne
      omega
    have hcond : ¬ (strTruthy (some rn) = false ∧ ¬ (cfg.defaultRecipeName = "first") ∧
        ¬ (cfg.defaultRecipeName = "lastUsed")) := by
      intro hx
      rw [hTr] at hx
      cases hx.1
    simp only [resolveFromRecipes, if_neg hlen, if_neg hcond, h1]
    cases hfb : (fallbackPhase cfg
        (if ¬ b.previousLanguageId = some languageId then
          { b with previouslyUsedRecipe := none }
        else b).previouslyUsedRecipe languageId (some rn) none).1 with
    | none => simp [hfb]
    | some recipe => simp [hfb]

/-- Witness for C4 (amended) at the baseline configuration and the name
`missing`. -/
theorem c4_amended_missing_recipe_witness :
    ¬ ("missing" : String) = "" ∧
    cfgBase.recipes.filter (fun r => r.name = "missing") = [] ∧
    LogEvent.log (resolveFailMsg (some "missing")) ∈
      (resolveFromRecipes builder0 cfgBase id "latex" (some "missing")).2.2 := by
  refine ⟨by decide, by decide, ?_⟩
  exact (c4_amended_missing_recipe cfgBase "missing" (by decide) (by decide)).2.2
    builder0 id "latex" (by decide)

/-- Fixture configuration for C7: one recipe whose only tool reference is
undefined. -/
def cfgAllSkipped : Config :=
  { cfgBase with recipes := [⟨"r", [ToolRef.byName "undef"]⟩] }

/-- Counterexample to C7 as stated: with every tool of the chosen recipe
undefined, the resolver does return the empty step list, but the
subsequent build of that empty list reads `steps[0]` — an out-of-bounds
access (`undefined` in JS) whose `.command` projection throws, so the
build ends on the caught-exception path instead of spawning. -/
theorem c7_counterexample :
    (createSteps builder0 cfgAllSkipped id [] "latex" (some "r")).1 = some [] ∧
    buildStepFirstAccess [] 0 =
      Except.error "TypeError: cannot read command of undefined" ∧
    (buildRun builder0 cfgAllSkipped id [] "latex" (some "r")).1.thrown = true ∧
    (buildRun builder0 cfgAllSkipped id [] "latex" (some "r")).1.spawned = false := by
  decide

/-- Skipping every tool leaves the accumulated step list unchanged. -/
theorem expandTools_all_skipped_aux (cfg : Config) (rname : String) :
    ∀ (ts : List ToolRef) (acc : List StepCommand × List LogEvent),
      (∀ t ∈ ts, ∃ s, t = ToolRef.byName s ∧ cfg.tools.filter (fun c => c.name = s) = []) →
      (ts.foldl (expandToolsStep cfg rname) acc).1 = acc.1 := by
  intro ts
  induction ts with
  | nil => intro acc _; rfl
  | cons t rest ih =>
    intro acc hall
    obtain ⟨s, ht, hfil⟩ := hall t (by simp)
    subst ht
    have hstep : expandToolsStep cfg rname acc (ToolRef.byName s) =
        (acc.1, acc.2 ++ [.log (skipLogMsg s rname), .notify (skipNotifyMsg s rname)]) := by
      simp [expandToolsStep, hfil]
    rw [List.foldl_cons, hstep]
    exact ih _ (fun u hu => hall u (by simp [hu]))

/-- C7 (amended).  When every tool reference inside the chosen recipe is
undefined, the resolver returns the empty step list as a valid degenerate
result rather than a failure; the subsequent build of that empty step
list, however, immediately reads the step at index 0, which is out of
bounds and aborts on the type-error path. -/
theorem c7_amended_empty_steps (cfg : Config) (r : Recipe)
    (hall : ∀ t ∈ r.tools, ∃ s, t = ToolRef.byName s ∧
      cfg.tools.filter (fun c => c.name = s) = []) :
    (expandTools cfg r).1 = [] ∧
    (∀ b rap lines languageId, cfg.recipes = [r] → ¬ r.name = "" →
      (createSteps b cfg rap lines languageId (some r.name)).1 = some []) ∧
    buildStepFirstAccess [] 0 =
      Except.error "TypeError: cannot read command of undefined" := by
  have hexp : (expandTools cfg r).1 = [] :=
    expandTools_all_skipped_aux cfg r.name r.tools ([], []) hall
  refine ⟨hexp, ?_, rfl⟩
  intro b rap lines languageId hrec hname
  have hTr : strTruthy (some r.name) = true := by simp [strTruthy, hname]
  have hlen : ¬ cfg.recipes.length < 1 := by rw [hrec]; simp
  have hcond : ¬ (strTruthy (some r.name) = false ∧ ¬ (cfg.defaultRecipeName = "first") ∧
      ¬ (cfg.defaultRecipeName = "lastUsed")) := by
    intro hx
    rw [hTr] at hx
    cases hx.1
  have hlk : lookupPhase cfg (some r.name) = (some r, []) := by
    simp [lookupPhase, hTr, showJs, hrec]
  have hfb : ∀ prev, fallbackPhase cfg prev languageId (some r.name) (some r) =
      (some r, []) := by
    intro prev
    simp [fallbackPhase]
  simp only [createSteps, resolveFromRecipes, if_neg hlen, if_neg hcond, hlk, hfb, hexp,
    List.map_nil]

/-- Witness for C7 (amended) at the concrete all-skipped configuration. -/
theorem c7_amended_empty_steps_witness :
    cfgAllSkipped.recipes = [⟨"r", [ToolRef.byName "undef"]⟩] ∧
    (createSteps builder0 cfgAllSkipped id [] "latex" (some "r")).1 = some [] := by
  refine ⟨rfl, ?_⟩
  exact (c7_amended_empty_steps cfgAllSkipped ⟨"r", [ToolRef.byName "undef"]⟩
    (by
      intro t ht
      simp only [List.mem_singleton] at ht
      subst ht
      exact ⟨"undef", rfl, by decide⟩)).2.1
    builder0 id [] "latex" rfl (by decide)

instance (g : GateState) : Decidable (gateInv g) := by
  unfold gateInv
  infer_instance

/-- Admission preserves the gate invariant. -/
theorem gateInv_admit_dec :
    ∀ (w bld : Bool) (pa pb : Phase) (i : Bool),
      (GateState.mk w bld pa pb).phase i = Phase.start → w = false →
      gateInv ⟨w, bld, pa, pb⟩ →
      gateInv { (GateState.mk w bld pa pb).setPhase i Phase.admitted with
                 waitingHeld := true } := by
  decide

/-- Rejection preserves the gate invariant. -/
theorem gateInv_reject_dec :
    ∀ (w bld : Bool) (pa pb : Phase) (i : Bool),
      (GateState.mk w bld pa pb).phase i = Phase.start → w = true →
      gateInv ⟨w, bld, pa, pb⟩ →
      gateInv ((GateState.mk w bld pa pb).setPhase i Phase.rejected) := by
  decide

/-- Build-lock acquisition preserves the gate invariant. -/
theorem gateInv_acquire_dec :
    ∀ (w bld : Bool) (pa pb : Phase) (i : Bool),
      (GateState.mk w bld pa pb).phase i = Phase.admitted → bld = false →
      gateInv ⟨w, bld, pa, pb⟩ →
      gateInv { (GateState.mk w bld pa pb).setPhase i Phase.locked with
                 waitingHeld := false, buildHeld := true } := by
  decide

/-- Completion preserves the gate invariant. -/
theorem gateInv_finish_dec :
    ∀ (w bld : Bool) (pa pb : Phase) (i : Bool),
      (GateState.mk w bld pa pb).phase i = Phase.locked →
      gateInv ⟨w, bld, pa, pb⟩ →
      gateInv { (GateState.mk w bld pa pb).setPhase i Phase.done with
                 buildHeld := false } := by
  decide

/-- One gate transition preserves the invariant. -/
theorem gateInv_step {g g2 : GateState} (hi : gateInv g) (hs : GStep g g2) :
    gateInv g2 := by
  obtain ⟨w, bld, pa, pb⟩ := g
  cases hs with
  | checkPass i hp hw => exact gateInv_admit_dec w bld pa pb i hp hw hi
  | reject i hp hw => exact gateInv_reject_dec w bld pa pb i hp hw hi
  | acquire i hp hb => exact gateInv_acquire_dec w bld pa pb i hp hb hi
  | finish i hp => exact gateInv_finish_dec w bld pa pb i hp hi

/-- Every reachable gate state satisfies the invariant. -/
theorem gateReach_inv {g : GateState} (h : GateReach g) : gateInv g := by
  induction h with
  | init => decide
  | step hr hs ih => exact gateInv_step ih hs

/-- C3.  In every reachable gate state: (a) while one request has passed
admission and is waiting for the build lock, a newly arriving request can
only be rejected — its check transition makes it `rejected` and touches
neither lock nor the other request; (b) a request arriving when no request
is currently waiting is admitted, leaving the other request untouched;
(c) an admitted request moves to the locked (building) stage only when the
build lock is free, i.e. it blocks until the build lock is released. -/
theorem c3_admission_gate (g : GateState) (hg : GateReach g) :
    (∀ i, g.phase i = Phase.admitted → g.phase (!i) = Phase.start →
      GStep g (g.setPhase (!i) Phase.rejected) ∧
      (∀ g2, GStep g g2 → ¬ g2.phase (!i) = g.phase (!i) →
        g2.phase (!i) = Phase.rejected ∧ g2.phase i = g.phase i ∧
        g2.waitingHeld = g.waitingHeld ∧ g2.buildHeld = g.buildHeld)) ∧
    (∀ i, g.phase i = Phase.start →
      ¬ g.pA = Phase.admitted → ¬ g.pB = Phase.admitted →
      GStep g { g.setPhase i Phase.admitted with waitingHeld := true } ∧
      ({ g.setPhase i Phase.admitted with waitingHeld := true } : GateState).phase (!i) =
        g.phase (!i)) ∧
    (∀ i g2, g.phase i = Phase.admitted → GStep g g2 → g2.phase i = Phase.locked →
      g.buildHeld = false) := by
  obtain ⟨hw, hb, hx1, hx2⟩ := gateReach_inv hg
  refine ⟨?_, ?_, ?_⟩
  · intro i hadm hstart
    have hwt : g.waitingHeld = true := by
      apply hw.mpr
      cases i with
      | true => exact Or.inl hadm
      | false => exact Or.inr hadm
    refine ⟨GStep.reject g (!i) hstart hwt, ?_⟩
    intro g2 hstep hchange
    cases hstep with
    | checkPass j hp hwf => rw [hwf] at hwt; cases hwt
    | reject j hp hwr =>
      cases i <;> cases j <;>
        simp_all [GateState.phase, GateState.setPhase]
    | acquire j hp hbf =>
      cases i <;> cases j <;>
        simp_all [GateState.phase, GateState.setPhase]
    | finish j hp =>
      cases i <;> cases j <;>
        simp_all [GateState.phase, GateState.setPhase]
  · intro i hstart hnA hnB
    have hwf : g.waitingHeld = false := by
      cases hwh : g.waitingHeld with
      | false => rfl
      | true =>
        rcases hw.mp hwh with h | h
        · exact absurd h hnA
        · exact absurd h hnB
    refine ⟨GStep.checkPass g i hstart hwf, ?_⟩
    cases i <;> simp [GateState.phase, GateState.setPhase]
  · intro i g2 hadm hstep hlock
    cases hstep with
    | checkPass j hp hwf =>
      cases i <;> cases j <;>
        simp_all [GateState.phase, GateState.setPhase]
    | reject j hp hwr =>
      cases i <;> cases j <;>
        simp_all [GateState.phase, GateState.setPhase]
    | acquire j hp hbf =>
      cases i <;> cases j <;>
        simp_all [GateState.phase, GateState.setPhase]
    | finish j hp =>
      cases i <;> cases j <;>
        simp_all [GateState.phase, GateState.setPhase]

/-- The reachable state in which request A has passed admission and waits
for the build lock while request B has not yet arrived. -/
def gWaitFixture : GateState :=
  { waitingHeld := true, buildHeld := false, pA := Phase.admitted, pB := Phase.start }

/-- Witness for C3: in the concrete reachable state where A is admitted
and waiting, the arrival of B is rejected. -/
theorem c3_admission_gate_witness :
    GateReach gWaitFixture ∧
    GStep gWaitFixture (gWaitFixture.setPhase false Phase.rejected) := by
  have hr : GateReach gWaitFixture :=
    GateReach.step GateReach.init (GStep.checkPass initGate true rfl rfl)
  exact ⟨hr, ((c3_admission_gate gWaitFixture hr).1 true rfl rfl).1⟩

end Builder
